import Mathlib

/-
Verification of the natural-language specification of `esptool` against the
code of `src/esptool/cmds.py`.

The development shallowly embeds the flash-programming engine of `cmds.py`:
pure Python functions become Lean functions, the device (an `ESPLoader`
object) becomes a record of per-chip constants together with oracle fields
for the values its query methods return, and every command that `write_flash`
sends to the device is recorded as a `DevOp` in an explicit trace.  Raised
Python exceptions become `Option String` / `Except String` error results.

External collaborators that `cmds.py` imports from sibling modules
(`bin_image`, `loader`, `util`, `hashlib`, `zlib`) are not part of the
sources under verification; they are embedded as record fields (for device
queries and the hash/compression functions) or as small functions modelled
from the spec, each marked as such in its doc comment.
-/

namespace Esptool

/-- Device-visible operations that `write_flash` and its helpers issue.
Each constructor corresponds to one `esp.<method>` call in `cmds.py` that
talks to the chip.  Pure queries of cached values are modelled as record
fields of `Esp` instead of trace entries. -/
inductive DevOp where
  | flashSetParams (sizeBytes : Nat)
  | eraseFlash
  | flashBegin (size address : Nat) (beginRomEncrypted : Bool)
  | flashDeflBegin (uncsize compsize address : Nat)
  | flashBlock (data : List Nat) (seq : Nat)
  | flashDeflBlock (data : List Nat) (seq : Nat)
  | flashEncryptBlock (data : List Nat) (seq : Nat)
  | reconnect
  | runStub
  | readReg (addr : Nat)
  | flashMd5sum (address size : Nat)
  | flashDeflFinish
  | flashFinish
deriving Repr, DecidableEq

/-- Operations that mutate (erase or write) the flash contents.  Used to
state the fail-fast claims: a batch aborted by a pre-flight check must have
sent none of these. -/
def is_write_op : DevOp → Bool
  | DevOp.eraseFlash => true
  | DevOp.flashBegin _ _ _ => true
  | DevOp.flashDeflBegin _ _ _ => true
  | DevOp.flashBlock _ _ => true
  | DevOp.flashDeflBlock _ _ => true
  | DevOp.flashEncryptBlock _ _ => true
  | _ => false

/-- Header fields of a parsed firmware image that the security pre-flight of
`write_flash` (cmds.py lines 488-544) consults.  `LoadFirmwareImage` itself
lives in `bin_image.py`, outside the verified sources; only the four fields
read by `cmds.py` are embedded. -/
structure ImageHeader where
  chip_id : Nat
  min_rev : Nat
  min_rev_full : Nat
  max_rev_full : Nat
deriving Repr, DecidableEq

/-- Result of parsing a bootloader image with `esp.BOOTLOADER_IMAGE` inside
`_update_image_flash_params`; `data_length` is the length of the serialized
image data that precedes the appended SHA-256 digest (field of the same name
in `bin_image.py`). -/
structure BootImageInfo where
  data_length : Nat
deriving Repr, DecidableEq

/-- The device session.  Constants (`CHIP_NAME`, block sizes, offsets) are
per-chip class attributes of `ESPLoader`; the Boolean and numeric query
methods of the loader are embedded as oracle fields holding the value the
device would answer; `flash_md5sum` answers with `.error ()` to model a
`NotImplementedInROMError`.  `parseBootImage` embeds
`esp.BOOTLOADER_IMAGE(io.BytesIO(image))` followed by `.verify()` —
`none` means that construction or verification raised.  `sha256`, `md5` and
`zlib_compress` stand for the external `hashlib` / `zlib` collaborators. -/
structure Esp where
  CHIP_NAME : String
  IMAGE_CHIP_ID : Nat
  IS_STUB : Bool
  secure_download_mode : Bool
  WRITE_FLASH_ATTEMPTS : Nat
  FLASH_WRITE_SIZE : Nat
  FLASH_SECTOR_SIZE : Nat
  FLASH_ENCRYPTED_WRITE_ALIGN : Nat
  BOOTLOADER_FLASH_OFFSET : Nat
  ESP_IMAGE_MAGIC : Nat
  get_secure_boot_enabled : Bool
  get_encrypted_download_disabled : Bool
  get_flash_crypt_config : Option Nat
  is_flash_encryption_key_valid : Bool
  flash_crypt_cnt : Nat
  get_flash_encryption_enabled : Bool
  get_chip_revision : Nat
  get_minor_chip_version : Nat
  get_major_chip_version : Nat
  flash_id : Nat
  flash_md5sum : Nat → Nat → Except Unit (List Nat)
  parseBootImage : List Nat → Option BootImageInfo
  parse_flash_freq_arg : String → Nat
  parse_flash_size_arg : String → Nat
  sha256 : List Nat → List Nat
  md5 : List Nat → List Nat
  zlib_compress : List Nat → List Nat

/-- An `(address, file)` argument of `write_flash`.  `parsedImage` embeds the
result of `LoadFirmwareImage(esp.CHIP_NAME, argfile)` in the security
pre-flight: `none` means that call raised and the file is skipped there. -/
structure ArgFile where
  name : String
  data : List Nat
  parsedImage : Option ImageHeader

/-- The `FLASH_MODES` dictionary of cmds.py (lines 77-82); `none` models a
`KeyError` on an unknown mode string. -/
def FLASH_MODES : String → Option Nat
  | "qio" => some 0
  | "qout" => some 1
  | "dio" => some 2
  | "dout" => some 3
  | _ => none

/-- The `DETECTED_FLASH_SIZES` dictionary of cmds.py (lines 51-75), keyed by
the high byte of the device flash id. -/
def DETECTED_FLASH_SIZES : Nat → Option String
  | 0x12 => some "256KB"
  | 0x13 => some "512KB"
  | 0x14 => some "1MB"
  | 0x15 => some "2MB"
  | 0x16 => some "4MB"
  | 0x17 => some "8MB"
  | 0x18 => some "16MB"
  | 0x19 => some "32MB"
  | 0x1A => some "64MB"
  | 0x1B => some "128MB"
  | 0x1C => some "256MB"
  | 0x20 => some "64MB"
  | 0x21 => some "128MB"
  | 0x22 => some "256MB"
  | 0x32 => some "256KB"
  | 0x33 => some "512KB"
  | 0x34 => some "1MB"
  | 0x35 => some "2MB"
  | 0x36 => some "4MB"
  | 0x37 => some "8MB"
  | 0x38 => some "16MB"
  | 0x39 => some "32MB"
  | 0x3A => some "64MB"
  | _ => none

/-- Modelled from the spec: `flash_size_bytes` lives in `esptool/util.py`,
outside the verified sources.  It converts a flash-size string (the values
of `DETECTED_FLASH_SIZES`) to a byte count; `none` stands for the
`FatalError` the real helper raises on an unparseable size. -/
def flash_size_bytes : String → Option Nat
  | "256KB" => some (256 * 1024)
  | "512KB" => some (512 * 1024)
  | "1MB" => some (1024 * 1024)
  | "2MB" => some (2 * 1024 * 1024)
  | "4MB" => some (4 * 1024 * 1024)
  | "8MB" => some (8 * 1024 * 1024)
  | "16MB" => some (16 * 1024 * 1024)
  | "32MB" => some (32 * 1024 * 1024)
  | "64MB" => some (64 * 1024 * 1024)
  | "128MB" => some (128 * 1024 * 1024)
  | "256MB" => some (256 * 1024 * 1024)
  | _ => none

/-- Lift of `flash_size_bytes` to an optional size string (`flash_size_bytes`
in util.py returns `None` when handed `None`). -/
def flash_size_bytes? : Option String → Option Nat
  | none => none
  | some s => flash_size_bytes s

/-- Modelled from the spec: `pad_to` lives in `esptool/util.py`, outside the
verified sources.  It pads `data` with `0xFF` bytes up to a multiple of
`alignment`. -/
def pad_to (data : List Nat) (alignment : Nat) : List Nat :=
  data ++ List.replicate ((alignment - data.length % alignment) % alignment) 0xFF

/-- Python slice `l[a:b]` on a byte string. -/
def pyslice (l : List Nat) (a b : Nat) : List Nat :=
  (l.drop a).take (b - a)

/-- Number of set bits, embedding `bin(n).count("1")` from cmds.py line 597. -/
def popcount (n : Nat) : Nat :=
  if h : n = 0 then 0 else n % 2 + popcount (n / 2)
decreasing_by exact Nat.div_lt_self (Nat.pos_of_ne_zero h) one_lt_two

/-- The `CHIP_DETECT_MAGIC_REG_ADDR` constant of `ESPLoader` (loader.py,
outside the verified sources); its exact value is irrelevant to the claims,
only that the stub finalization issues a register read of it. -/
def CHIP_DETECT_MAGIC_REG_ADDR : Nat := 0x40001000

/-- The `SHA256_DIGEST_LEN` attribute of firmware image classes
(bin_image.py): the appended digest is 32 bytes. -/
def SHA256_DIGEST_LEN : Nat := 32

/-- Embedding of cmds.py lines 373-384: compute the two replacement bytes
`struct.pack("BB", img_flash_mode, img_flash_size + img_flash_freq)` from
the requested overrides and the current header bytes.  `none` models the
`KeyError` of `FLASH_MODES[flash_mode]` on an unknown mode string. -/
def computed_flash_params (esp : Esp) (flash_freq flash_mode flash_size : String)
    (image : List Nat) : Option (List Nat) :=
  let img_flash_size_freq := image.getD 3 0
  match (if flash_mode ≠ "keep" then FLASH_MODES flash_mode else some (image.getD 2 0)) with
  | none => none
  | some img_flash_mode =>
    let img_flash_freq :=
      if flash_freq ≠ "keep" then esp.parse_flash_freq_arg flash_freq
      else img_flash_size_freq &&& 0x0F
    let img_flash_size :=
      if flash_size ≠ "keep" then esp.parse_flash_size_arg flash_size
      else img_flash_size_freq &&& 0xF0
    some [img_flash_mode, img_flash_size + img_flash_freq]

/-- Embedding of `_update_image_flash_params` (cmds.py lines 337-424).
Returns `none` when the Python code would raise (unknown mode string, or the
re-parse of the patched image at line 394 failing); otherwise
`some (resultImage, shaOk)` where `shaOk` is `false` exactly when the
"SHA recalculation for binary failed!" warning branch (lines 417-422) runs.
Reads of cached log output are dropped; everything else follows the source
line by line. -/
def update_image_flash_params (esp : Esp) (address : Nat)
    (flash_freq flash_mode flash_size : String) (image : List Nat) :
    Option (List Nat × Bool) :=
  if image.length < 8 then some (image, true)
  else if address ≠ esp.BOOTLOADER_FLASH_OFFSET then some (image, true)
  else if flash_mode = "keep" ∧ flash_freq = "keep" ∧ flash_size = "keep" then
    some (image, true)
  else if image.getD 0 0 ≠ esp.ESP_IMAGE_MAGIC then some (image, true)
  else match esp.parseBootImage image with
  | none => some (image, true)
  | some _ =>
    let sha_appended := esp.CHIP_NAME ≠ "esp8266" ∧ image.getD 23 0 = 1
    match computed_flash_params esp flash_freq flash_mode flash_size image with
    | none => none
    | some flash_params =>
      let image1 :=
        if flash_params ≠ pyslice image 2 4 then
          image.take 2 ++ flash_params ++ image.drop 4
        else image
      if sha_appended then
        match esp.parseBootImage image1 with
        | none => none
        | some info =>
          let image_data_before_sha := image1.take info.data_length
          let image_data_after_sha := image1.drop (info.data_length + SHA256_DIGEST_LEN)
          let sha_digest_calculated := esp.sha256 image_data_before_sha
          let image2 := image_data_before_sha ++ sha_digest_calculated ++ image_data_after_sha
          let image_stored_sha :=
            pyslice image2 info.data_length (info.data_length + SHA256_DIGEST_LEN)
          some (image2, decide (sha_digest_calculated = image_stored_sha))
      else some (image1, true)

/-- One entry of the `ROM_LIST` chip catalog consulted by `detect_chip`.
Modelled from the spec: the catalog lives in `esptool/targets`, outside the
verified sources; each chip class exposes either a fixed numeric chip id or
a fixed magic value (`USES_MAGIC_VALUE` choosing between them). -/
structure RomCls where
  name : String
  USES_MAGIC_VALUE : Bool
  IMAGE_CHIP_ID : Nat
  MAGIC_VALUE : Nat

/-- The exception kinds caught around the get-chip-id phase of `detect_chip`
(cmds.py line 148): `UnsupportedCommandError`, `struct.error`, `FatalError`. -/
inductive Phase1Err where
  | unsupportedCmd
  | structErr
  | fatalErr
deriving Repr, DecidableEq

/-- Responses of the serial port used by `detect_chip`: the result of
`get_chip_id()`, of the fallback `read_reg(CHIP_DETECT_MAGIC_REG_ADDR)`
(`.error ()` models an `UnsupportedCommandError`), of the dummy
secure-download-mode probe read after a phase-1 match, and of the reconnect
performed before phase 2 (`.error e` models a fatal connect failure). -/
structure DetectPort where
  get_chip_id : Except Phase1Err Nat
  read_reg_magic : Except Unit Nat
  dummy_read : Except Unit Nat
  reconnect_result : Except String Unit

/-- Embedding of `detect_chip` (cmds.py lines 108-187), with the transport
bring-up, stub detection and `_post_connect` omitted (they do not influence
which chip is selected or which error is raised).  Returns the detected chip
name together with its `secure_download_mode` flag, or the raised
`FatalError` message. -/
def detect_chip (rom_list : List RomCls) (port : DetectPort) :
    Except String (String × Bool) :=
  match port.get_chip_id with
  | Except.ok chip_id =>
    match rom_list.find? (fun cls => !cls.USES_MAGIC_VALUE && (chip_id == cls.IMAGE_CHIP_ID)) with
    | some cls =>
      let sdm := match port.dummy_read with
        | Except.error () => true
        | Except.ok _ => false
      Except.ok (cls.name, sdm)
    | none =>
      Except.error ("Unexpected chip ID value " ++ toString chip_id ++
        ". Failed to autodetect chip type.")
  | Except.error e =>
    match (if e ≠ Phase1Err.structErr then port.reconnect_result else Except.ok ()) with
    | Except.error msg => Except.error msg
    | Except.ok () =>
      match port.read_reg_magic with
      | Except.error () =>
        Except.error ("Unsupported Command Error received. " ++
          "Probably this means Secure Download Mode is enabled, " ++
          "autodetection will not work. Need to manually specify the chip.")
      | Except.ok chip_magic_value =>
        match rom_list.find? (fun cls => cls.USES_MAGIC_VALUE && (chip_magic_value == cls.MAGIC_VALUE)) with
        | some cls => Except.ok (cls.name, false)
        | none =>
          Except.error ("Unexpected chip magic value " ++ toString chip_magic_value ++
            ". Failed to autodetect chip type.")

/-- Embedding of the revision-field selection of `write_flash`
(cmds.py lines 502-512): decide whether the extended `min/max_rev_full`
fields of the image are used instead of the legacy `min_rev`. -/
def use_rev_full_fields (img : ImageHeader) : Bool :=
  if img.max_rev_full = 0 then false
  else if img.max_rev_full = 65535 then
    if img.min_rev_full = 0 ∧ img.min_rev ≠ 0 then false else true
  else true

/-- Embedding of the per-image chip-id / revision checks of `write_flash`
(cmds.py lines 496-544) for one parsed image; `some msg` models the raised
`FatalError`. -/
def check_image_rev (esp : Esp) (fname : String) (img : ImageHeader) : Option String :=
  if img.chip_id ≠ esp.IMAGE_CHIP_ID then
    some (fname ++ " is not an " ++ esp.CHIP_NAME ++
      " image. Use the force argument to flash anyway.")
  else if use_rev_full_fields img then
    let rev := esp.get_chip_revision
    if rev < img.min_rev_full ∨ rev > img.max_rev_full then
      some (fname ++ " requires chip revision in range. Use the force argument to flash anyway.")
    else none
  else
    let rev :=
      if esp.CHIP_NAME = "ESP32-C3" then esp.get_minor_chip_version
      else esp.get_major_chip_version
    if rev < img.min_rev then
      some (fname ++ " requires a higher chip revision. Use the force argument to flash anyway.")
    else none

/-- Embedding of the security pre-flight of `write_flash`
(cmds.py lines 477-544): the secure-boot low-region check followed by the
per-image chip-id / revision checks.  `some msg` is the first raised
`FatalError`; the whole phase is skipped when forced, on ESP8266, or in
secure download mode. -/
def security_preflight (esp : Esp) (addr_filename : List (Nat × ArgFile))
    (force : Bool) : Option String :=
  if ¬force ∧ esp.CHIP_NAME ≠ "ESP8266" ∧ ¬esp.secure_download_mode then
    let sb :=
      if esp.get_secure_boot_enabled then
        addr_filename.findSome? (fun af =>
          if af.1 < 0x8000 then
            some ("Secure Boot detected, writing to flash regions below 0x8000 " ++
              "is disabled to protect the bootloader.")
          else none)
      else none
    match sb with
    | some e => some e
    | none =>
      addr_filename.findSome? (fun af =>
        match af.2.parsedImage with
        | none => none
        | some img => check_image_rev esp af.2.name img)
  else none

/-- Embedding of the encryption pre-flight and the plaintext-write warnings
of `write_flash` (cmds.py lines 546-616).  `some msg` models the raised
`FatalError`. -/
def encryption_preflight (esp : Esp) (addr_filename : List (Nat × ArgFile))
    (encrypt : Bool) (encrypt_files : Option (List (Nat × ArgFile)))
    (ignore_flash_enc_efuse force : Bool) : Option String :=
  if encrypt ∨ encrypt_files.isSome then
    if ¬esp.secure_download_mode ∧ esp.get_encrypted_download_disabled then
      some ("This chip has encrypt functionality in UART download mode disabled. " ++
        "This is the Flash Encryption configuration for Production mode " ++
        "instead of Development mode.")
    else
      let do_write₁ :=
        if ¬esp.secure_download_mode then
          (match esp.get_flash_crypt_config with
            | some cfg => if cfg ≠ 0xF then false else true
            | none => true) &&
          (if ¬esp.is_flash_encryption_key_valid then false else true)
        else true
      let files_to_encrypt := if encrypt then some addr_filename else encrypt_files
      let do_write₂ :=
        match files_to_encrypt with
        | none => do_write₁
        | some fs =>
          if fs.any (fun af => af.1 % esp.FLASH_ENCRYPTED_WRITE_ALIGN ≠ 0) then false
          else do_write₁
      if !do_write₂ && !ignore_flash_enc_efuse then
        some ("Cannot perform encrypted flash write, " ++
          "consult Flash Encryption documentation for more information")
      else none
  else
    if ¬force ∧ esp.CHIP_NAME ≠ "ESP8266" then
      if esp.CHIP_NAME ≠ "ESP32" ∧ esp.secure_download_mode ∧
          popcount esp.flash_crypt_cnt % 2 = 1 then
        some ("WARNING: Detected flash encryption and secure download mode enabled. " ++
          "Flashing plaintext binary may brick your device!")
      else if ¬esp.secure_download_mode ∧ esp.get_encrypted_download_disabled ∧
          esp.get_flash_encryption_enabled then
        some ("WARNING: Detected flash encryption enabled and " ++
          "download manual encrypt disabled. " ++
          "Flashing plaintext binary may brick your device!")
      else none
    else none

/-- Embedding of `detect_flash_size` (cmds.py lines 293-311): fatal in secure
download mode, otherwise a `DETECTED_FLASH_SIZES` lookup on the high byte of
the device flash id. -/
def detect_flash_size (esp : Esp) : Except String (Option String) :=
  if esp.secure_download_mode then
    Except.error ("Detecting flash size is not supported in secure download mode. " ++
      "Need to manually specify flash size.")
  else Except.ok (DETECTED_FLASH_SIZES (esp.flash_id >>> 16))

/-- Embedding of `_set_flash_parameters` (cmds.py lines 1066-1122): resolve
the flash-size argument ("detect" / "keep" / explicit), send
`flash_set_parameters` to the device when a size is known, and return the
resolved size string (the Python function returns "keep" when called with
"keep").  The trace holds the issued device command. -/
def _set_flash_parameters (esp : Esp) (flash_size : String) :
    Except String (List DevOp × String) :=
  let keep := flash_size = "keep"
  let resolved : Except String (Option String) :=
    if flash_size = "detect" then
      match detect_flash_size esp with
      | Except.error e => Except.error e
      | Except.ok none => Except.ok (some "4MB")
      | Except.ok (some s) => Except.ok (some s)
    else if flash_size = "keep" then
      if esp.secure_download_mode then Except.ok none
      else
        match detect_flash_size esp with
        | Except.error e => Except.error e
        | Except.ok o => Except.ok o
    else Except.ok (some flash_size)
  match resolved with
  | Except.error e => Except.error e
  | Except.ok none => Except.ok ([], if keep then "keep" else flash_size)
  | Except.ok (some fs) =>
    match flash_size_bytes fs with
    | none => Except.error ("Unknown flash size " ++ fs)
    | some n => Except.ok ([DevOp.flashSetParams n], if keep then "keep" else fs)

/-- Embedding of the flash-size resolution of `write_flash`
(cmds.py lines 618-635): call `_set_flash_parameters`, then compute the
effective flash end used for the size check.  The `.error` on
`(some, none)` models the Python `TypeError` that `min(int, None)` raises at
line 635. -/
def resolve_flash_end (esp : Esp) (flash_size : String) :
    Except String (List DevOp × String × Option Nat) :=
  match _set_flash_parameters esp flash_size with
  | Except.error e => Except.error e
  | Except.ok (ops, fs) =>
    let set_flash_size :=
      if fs ≠ "detect" ∧ fs ≠ "keep" then flash_size_bytes fs else none
    match (if esp.secure_download_mode then Except.ok set_flash_size
           else
             match detect_flash_size esp with
             | Except.error e => Except.error e
             | Except.ok fes => Except.ok (flash_size_bytes? fes) :
           Except String (Option Nat)) with
    | Except.error e => Except.error e
    | Except.ok flash_end =>
      match set_flash_size, flash_end with
      | some s, some f => Except.ok (ops, fs, some (min s f))
      | some _, none => Except.error "TypeError: min of int and None"
      | none, fe => Except.ok (ops, fs, fe)

/-- Embedding of the file-size containment check of `write_flash`
(cmds.py lines 636-645): with a resolved flash end, the first file whose
`address + length` exceeds it raises a `FatalError`. -/
def check_files_fit (flash_end : Option Nat) (addr_filename : List (Nat × ArgFile)) :
    Option String :=
  match flash_end with
  | none => none
  | some fend =>
    addr_filename.findSome? (fun af =>
      if af.1 + af.2.data.length > fend then
        some ("File " ++ af.2.name ++ " (length " ++ toString af.2.data.length ++
          ") at offset " ++ toString af.1 ++ " will not fit in " ++
          toString fend ++ " bytes of flash. " ++
          "Change the flash_size argument, or flashing address.")
      else none)

/-- Embedding of the guard of `erase_flash` (cmds.py lines 1133-1140), which
`write_flash` calls with default `force=False` when `erase_all` is set. -/
def erase_flash_guard (esp : Esp) (force : Bool) : Option String :=
  if ¬force ∧ esp.CHIP_NAME ≠ "ESP8266" ∧ ¬esp.secure_download_mode ∧
      (esp.get_flash_encryption_enabled ∨ esp.get_secure_boot_enabled) then
    some ("Active security features detected, " ++
      "erasing flash is disabled as a safety measure.")
  else none

/-- Stable sort by address, modelling Python `sorted(l, key=lambda x: x[0])`
(cmds.py line 699).  Python sorted is a stable comparison sort; any stable
comparison sort computes the same list, and insertion sort placing each
element before the first strictly larger key is one. -/
def sorted_by_addr (l : List (Nat × ArgFile × Bool)) : List (Nat × ArgFile × Bool) :=
  List.insertionSort (fun a b => a.1 ≤ b.1) l

/-- Embedding of the task-list assembly of `write_flash`
(cmds.py lines 684-699): tag every `addr_filename` entry with the batch
encrypt flag; when `encrypt_files` is given, tag those with `True`,
concatenate and sort by address.  When `encrypt_files` is absent no sorting
happens. -/
def assemble_all_files (addr_filename : List (Nat × ArgFile)) (encrypt : Bool)
    (encrypt_files : Option (List (Nat × ArgFile))) : List (Nat × ArgFile × Bool) :=
  let all_files := addr_filename.map (fun af => (af.1, af.2, encrypt))
  match encrypt_files with
  | none => all_files
  | some efs =>
    sorted_by_addr (all_files ++ efs.map (fun af => (af.1, af.2, true)))

/-- Embedding of the per-image preparation of a task
(cmds.py lines 717-736): pad to the write granularity, prepend `0xFF` fill
down to the sector boundary in ROM mode, and patch the flash parameters
unless a security feature forbids it.  Returns the adjusted address and
image, or `none` when `_update_image_flash_params` raised. -/
def prepare_image (esp : Esp) (flash_freq flash_mode flash_size : String)
    (address : Nat) (data : List Nat) (encrypted : Bool) : Option (Nat × List Nat) :=
  let image := pad_to data (if encrypted then esp.FLASH_ENCRYPTED_WRITE_ALIGN else 4)
  let bytes_over := address % esp.FLASH_SECTOR_SIZE
  let address' := if ¬esp.IS_STUB then address - bytes_over else address
  let image' :=
    if ¬esp.IS_STUB then List.replicate bytes_over 0xFF ++ image else image
  if ¬esp.secure_download_mode ∧ ¬esp.get_secure_boot_enabled then
    match update_image_flash_params esp address' flash_freq flash_mode flash_size image' with
    | none => none
    | some (img, _) => some (address', img)
  else some (address', image')

/-- Embedding of the block-streaming while loop of `write_flash`
(cmds.py lines 765-803): send the image in `FLASH_WRITE_SIZE` chunks,
padding non-compressed blocks with `0xFF`, choosing the block command by
compression / encryption.  `disc = some k` models a `SerialException` raised
by the transport when block number `k` is about to be sent; the Boolean
result is `false` when the loop was interrupted.  The fuel argument only
serves termination; it is called with `image.length`, which never runs out
while `FLASH_WRITE_SIZE ≥ 1` (with a zero write size the Python loop would
not terminate either). -/
def block_ops (esp : Esp) (encrypted compress : Bool) (disc : Option Nat) :
    Nat → List Nat → Nat → List DevOp × Bool
  | _, [], _ => ([], true)
  | 0, _ :: _, _ => ([], false)
  | fuel + 1, b :: bs, seq =>
    if disc = some seq then ([], false)
    else
      let image := b :: bs
      let block := image.take esp.FLASH_WRITE_SIZE
      let op :=
        if compress then DevOp.flashDeflBlock block seq
        else
          let blockp := block ++ List.replicate (esp.FLASH_WRITE_SIZE - block.length) 0xFF
          if encrypted then DevOp.flashEncryptBlock blockp seq
          else DevOp.flashBlock blockp seq
      let rest := block_ops esp encrypted compress disc fuel (image.drop esp.FLASH_WRITE_SIZE) (seq + 1)
      (op :: rest.1, rest.2)

/-- Embedding of one attempt of the retry loop body
(cmds.py lines 745-804): the begin command (`flash_defl_begin` when
compressed, otherwise `flash_begin` with the ROM-encrypted flag), followed
by the streamed blocks starting at sequence number 0. -/
def attempt_ops (esp : Esp) (original_image : List Nat) (uncsize address : Nat)
    (encrypted compress : Bool) (disc : Option Nat) : List DevOp × Bool :=
  let beginOp :=
    if compress then DevOp.flashDeflBegin uncsize original_image.length address
    else DevOp.flashBegin uncsize address encrypted
  let bl := block_ops esp encrypted compress disc original_image.length original_image 0
  (beginOp :: bl.1, bl.2)

/-- Embedding of the retry loop of `write_flash` (cmds.py lines 742-829).
`sched a` is the transport behaviour of attempt `a` (which block raises a
`SerialException`, if any); `reconnOk a` tells whether the
close-reopen-poll of the transport after attempt `a` brings the device back
within `DEFAULT_CONNECT_ATTEMPTS` polls.  Each retry restarts from
`original_image`, exactly as line 824 restores it.  The first component is
the trace of device commands actually issued (also on failure), the second
is `some msg` when the `SerialException` propagates. -/
def write_attempt_loop (esp : Esp) (original_image : List Nat) (uncsize address : Nat)
    (encrypted compress : Bool) (sched : Nat → Option Nat) (reconnOk : Nat → Bool) :
    Nat → Nat → List DevOp → List DevOp × Option String
  | _, 0, acc => (acc, some "internal: attempt loop exhausted")
  | attempt, remaining + 1, acc =>
    let a := attempt_ops esp original_image uncsize address encrypted compress (sched attempt)
    if a.2 then (acc ++ a.1, none)
    else if attempt = esp.WRITE_FLASH_ATTEMPTS ∨ encrypted then
      (acc ++ a.1, some "SerialException")
    else if reconnOk attempt then
      write_attempt_loop esp original_image uncsize address encrypted compress sched reconnOk
        (attempt + 1) remaining
        (acc ++ a.1 ++ [DevOp.reconnect] ++ (if esp.IS_STUB then [DevOp.runStub] else []))
    else (acc ++ a.1, some "SerialException: reconnect limit reached")

/-- The whole transfer of one task: the retry loop entered at attempt 1 with
`WRITE_FLASH_ATTEMPTS` attempts available. -/
def flash_task_transfer (esp : Esp) (original_image : List Nat) (uncsize address : Nat)
    (encrypted compress : Bool) (sched : Nat → Option Nat) (reconnOk : Nat → Bool) :
    List DevOp × Option String :=
  write_attempt_loop esp original_image uncsize address encrypted compress sched reconnOk
    1 esp.WRITE_FLASH_ATTEMPTS []

/-- Embedding of one iteration of the per-file loop of `write_flash`
(cmds.py lines 701-874): drop compression when the file is encrypted, skip
empty files, prepare the image, save `original_image`, run the transfer
with retries, issue the stub read-back barrier, and verify by MD5 unless the
task was encrypted or the session is in secure download mode.  Returns the
trace, the propagated error if any, and the value of the function-level
`compress` variable after this iteration (the source mutates one shared
variable, line 702 being a self-assignment). -/
def flash_one_file (esp : Esp) (flash_freq flash_mode flash_size : String)
    (compress0 : Bool) (address : Nat) (argfile : ArgFile) (encrypted : Bool)
    (sched : Nat → Option Nat) (reconnOk : Nat → Bool) :
    List DevOp × Option String × Bool :=
  let compress := if compress0 ∧ encrypted then false else compress0
  if argfile.data.length = 0 then ([], none, compress)
  else
    match prepare_image esp flash_freq flash_mode flash_size address argfile.data encrypted with
    | none => ([], some "image reparse raised in _update_image_flash_params", compress)
    | some (address', image) =>
      let calcmd5 := esp.md5 image
      let uncsize := image.length
      let original_image := if compress then esp.zlib_compress image else image
      let tr := flash_task_transfer esp original_image uncsize address' encrypted compress
        sched reconnOk
      match tr.2 with
      | some e => (tr.1, some e, compress)
      | none =>
        let ops := tr.1 ++
          (if esp.IS_STUB then [DevOp.readReg CHIP_DETECT_MAGIC_REG_ADDR] else [])
        if ¬encrypted ∧ ¬esp.secure_download_mode then
          let ops := ops ++ [DevOp.flashMd5sum address' uncsize]
          match esp.flash_md5sum address' uncsize with
          | Except.error () => (ops, none, compress)
          | Except.ok res =>
            if res ≠ calcmd5 then
              if res = esp.md5 (List.replicate uncsize 0xFF) then
                (ops, some "Write failed, the written flash region is empty.", compress)
              else (ops, some "MD5 of file does not match data in flash!", compress)
            else (ops, none, compress)
        else (ops, none, compress)

/-- The per-file loop of `write_flash` over the assembled `all_files` list,
threading the single function-level `compress` variable from one iteration
to the next and stopping at the first propagated exception.  `sched` and
`reconnOk` are indexed by the position of the file in `all_files`. -/
def flash_files_loop (esp : Esp) (flash_freq flash_mode flash_size : String)
    (sched : Nat → Nat → Option Nat) (reconnOk : Nat → Nat → Bool) :
    List (Nat × ArgFile × Bool) → Nat → Bool → List DevOp →
    List DevOp × Option String × Bool
  | [], _, compress, acc => (acc, none, compress)
  | f :: rest, idx, compress, acc =>
    let r := flash_one_file esp flash_freq flash_mode flash_size compress f.1 f.2.1 f.2.2
      (sched idx) (reconnOk idx)
    match r.2.1 with
    | some e => (acc ++ r.1, some e, r.2.2)
    | none =>
      flash_files_loop esp flash_freq flash_mode flash_size sched reconnOk rest (idx + 1)
        r.2.2 (acc ++ r.1)

/-- Keyword arguments of `write_flash` (cmds.py lines 461-469) with their
defaults. -/
structure WriteFlashArgs where
  erase_all : Bool := false
  encrypt : Bool := false
  encrypt_files : Option (List (Nat × ArgFile)) := none
  compress : Bool := false
  no_compress : Bool := false
  force : Bool := false
  ignore_flash_enc_efuse : Bool := false

/-- Embedding of `write_flash` (cmds.py lines 427-890): resolve the default
compression, run the security and encryption pre-flights, resolve the flash
size and check every file fits, optionally erase the whole chip, assemble
and process the task list, and finish the stub session.  The result is the
trace of device commands issued before returning or raising, together with
the raised `FatalError` / `SerialException` message if any. -/
def write_flash (esp : Esp) (addr_filename : List (Nat × ArgFile))
    (flash_freq flash_mode flash_size : String) (args : WriteFlashArgs)
    (sched : Nat → Nat → Option Nat) (reconnOk : Nat → Nat → Bool) :
    List DevOp × Option String :=
  let compress :=
    if ¬args.compress ∧ ¬args.no_compress then esp.IS_STUB else args.compress
  match security_preflight esp addr_filename args.force with
  | some e => ([], some e)
  | none =>
  match encryption_preflight esp addr_filename args.encrypt args.encrypt_files
      args.ignore_flash_enc_efuse args.force with
  | some e => ([], some e)
  | none =>
  match resolve_flash_end esp flash_size with
  | Except.error e => ([], some e)
  | Except.ok (ops0, fs, flash_end) =>
  match check_files_fit flash_end addr_filename with
  | some e => (ops0, some e)
  | none =>
  match (if args.erase_all then
           match erase_flash_guard esp false with
           | some e => Except.error e
           | none => Except.ok [DevOp.eraseFlash]
         else Except.ok ([] : List DevOp)) with
  | Except.error e => (ops0, some e)
  | Except.ok eraseOps =>
    let all_files := assemble_all_files addr_filename args.encrypt args.encrypt_files
    let lr := flash_files_loop esp flash_freq flash_mode fs sched reconnOk
      all_files 0 compress []
    let ops := ops0 ++ eraseOps ++ lr.1
    match lr.2.1 with
    | some e => (ops, some e)
    | none =>
      if esp.IS_STUB then
        match all_files.getLast? with
        | none => (ops, some "IndexError: all_files is empty")
        | some lastf =>
          let fin :=
            if lr.2.2 ∧ ¬lastf.2.2 then DevOp.flashDeflFinish else DevOp.flashFinish
          (ops ++ [DevOp.flashBegin 0 0 false, fin], none)
      else (ops, none)

/-- Concatenation, in order, of the data bytes carried by the block-write
commands of a trace. -/
def blocks_data : List DevOp → List Nat
  | [] => []
  | DevOp.flashBlock d _ :: rest => d ++ blocks_data rest
  | DevOp.flashDeflBlock d _ :: rest => d ++ blocks_data rest
  | DevOp.flashEncryptBlock d _ :: rest => d ++ blocks_data rest
  | _ :: rest => blocks_data rest

/-- Sequence numbers, in order, of the block-write commands of a trace. -/
def block_seqs : List DevOp → List Nat
  | [] => []
  | DevOp.flashBlock _ s :: rest => s :: block_seqs rest
  | DevOp.flashDeflBlock _ s :: rest => s :: block_seqs rest
  | DevOp.flashEncryptBlock _ s :: rest => s :: block_seqs rest
  | _ :: rest => block_seqs rest

/-- Address carried by a begin-of-write command, used to read the order in
which tasks were started off a trace. -/
def begin_addr : DevOp → Option Nat
  | DevOp.flashBegin _ a _ => some a
  | DevOp.flashDeflBegin _ _ a => some a
  | _ => none

/-- Recognizer for the device-side MD5 request of the verification step. -/
def is_md5_op : DevOp → Bool
  | DevOp.flashMd5sum _ _ => true
  | _ => false

/-- Sample plain data file used by the concrete witness runs. -/
def demoFilePlain : ArgFile := { name := "plain.bin", data := [9, 9, 9, 9], parsedImage := none }

/-- Sample to-be-encrypted data file used by the concrete witness runs. -/
def demoFileEnc : ArgFile := { name := "enc.bin", data := [1, 2, 3, 4], parsedImage := none }

/-- Another sample data file used by the concrete witness runs. -/
def demoFileA : ArgFile := { name := "a.bin", data := [5, 5, 5, 5], parsedImage := none }

/-- Another sample data file used by the concrete witness runs. -/
def demoFileB : ArgFile := { name := "b.bin", data := [6, 6, 6, 6], parsedImage := none }

/-- A concrete device session used by the witness runs: a stub session on an
encryption-capable chip with a 4 MB flash, a tiny write block size so the
traces stay small, and simple executable stand-ins for the external hash and
compression collaborators. -/
def demoEsp : Esp := {
  CHIP_NAME := "ESP32-S3"
  IMAGE_CHIP_ID := 9
  IS_STUB := true
  secure_download_mode := false
  WRITE_FLASH_ATTEMPTS := 3
  FLASH_WRITE_SIZE := 4
  FLASH_SECTOR_SIZE := 4096
  FLASH_ENCRYPTED_WRITE_ALIGN := 16
  BOOTLOADER_FLASH_OFFSET := 0
  ESP_IMAGE_MAGIC := 0xE9
  get_secure_boot_enabled := false
  get_encrypted_download_disabled := false
  get_flash_crypt_config := some 0xF
  is_flash_encryption_key_valid := true
  flash_crypt_cnt := 0
  get_flash_encryption_enabled := false
  get_chip_revision := 100
  get_minor_chip_version := 0
  get_major_chip_version := 1
  flash_id := 0x164020
  flash_md5sum := fun _ s => Except.ok [s % 256]
  parseBootImage := fun img => if 56 ≤ img.length then some ⟨img.length - 32⟩ else none
  parse_flash_freq_arg := fun _ => 0xF
  parse_flash_size_arg := fun s => if s = "8MB" then 0x30 else 0x20
  sha256 := fun l => List.replicate 32 ((l.foldl (fun a b => a + b) 0) % 256)
  md5 := fun l => [l.length % 256]
  zlib_compress := fun l => 0x78 :: l }

/-- A concrete bootloader image for the flash-parameter patch witnesses:
8-byte header (magic `0xE9`, mode byte 2 = `dio`, size+freq byte `0x2F`),
16 further extended-header/data bytes with byte 23 set to 1 (digest
appended), followed by the matching 32-byte digest of `demoEsp.sha256`. -/
def demoBootImage : List Nat :=
  [0xE9, 1, 2, 0x2F, 0, 0, 0, 0] ++
  (List.replicate 15 0 ++ [1]) ++ List.replicate 32 28

/-- A streaming run that was not interrupted issues exactly the commands of
an undisturbed run: the disconnect schedule leaves no other trace. -/
theorem block_ops_ok_eq (esp : Esp) (enc comp : Bool) (disc : Option Nat) :
    ∀ fuel image seq, (block_ops esp enc comp disc fuel image seq).2 = true →
      block_ops esp enc comp disc fuel image seq =
        block_ops esp enc comp none fuel image seq := by
  intro fuel
  induction fuel with
  | zero =>
    intro image seq h
    cases image with
    | nil => rfl
    | cons b bs => simp [block_ops] at h
  | succ n ih =>
    intro image seq h
    cases image with
    | nil => rfl
    | cons b bs =>
      by_cases hd : disc = some seq
      · simp [block_ops, hd] at h
      · simp only [block_ops, if_neg hd] at h ⊢
        simp only [reduceCtorEq, if_false] at h ⊢
        have := ih ((b :: bs).drop esp.FLASH_WRITE_SIZE) (seq + 1) h
        simp [this]

/-- With a positive write size and enough fuel, an undisturbed streaming run
reports success. -/
theorem block_ops_none_ok (esp : Esp) (enc comp : Bool)
    (hws : 0 < esp.FLASH_WRITE_SIZE) :
    ∀ fuel image seq, image.length ≤ fuel →
      (block_ops esp enc comp none fuel image seq).2 = true := by
  intro fuel
  induction fuel with
  | zero =>
    intro image seq h
    cases image with
    | nil => rfl
    | cons b bs => simp at h
  | succ n ih =>
    intro image seq h
    cases image with
    | nil => rfl
    | cons b bs =>
      simp only [block_ops, reduceCtorEq, if_false]
      apply ih
      simp only [List.length_drop, List.length_cons] at h ⊢
      omega

/-- The bytes streamed by an undisturbed run are the image itself followed
only by `0xFF` padding. -/
theorem blocks_data_block_ops (esp : Esp) (enc comp : Bool)
    (hws : 0 < esp.FLASH_WRITE_SIZE) :
    ∀ fuel image seq, image.length ≤ fuel →
      ∃ suffix, blocks_data (block_ops esp enc comp none fuel image seq).1 =
          image ++ suffix ∧ ∀ x ∈ suffix, x = 0xFF := by
  intro fuel
  induction fuel with
  | zero =>
    intro image seq h
    cases image with
    | nil => exact ⟨[], by simp [block_ops, blocks_data], by simp⟩
    | cons b bs => simp at h
  | succ n ih =>
    intro image seq h
    cases image with
    | nil => exact ⟨[], by simp [block_ops, blocks_data], by simp⟩
    | cons b bs =>
      have hlen : (b :: bs).length = bs.length + 1 := rfl
      obtain ⟨suffix, hsfx, hff⟩ := ih ((b :: bs).drop esp.FLASH_WRITE_SIZE) (seq + 1)
        (by simp only [List.length_drop] at *; omega)
      by_cases hcase : (b :: bs).length ≤ esp.FLASH_WRITE_SIZE
      · -- final, possibly short block: the rest of the stream is empty
        have hdropnil : (b :: bs).drop esp.FLASH_WRITE_SIZE = [] :=
          List.drop_eq_nil_iff.2 hcase
        have htake : (b :: bs).take esp.FLASH_WRITE_SIZE = b :: bs :=
          List.take_of_length_le hcase
        rw [hdropnil] at hsfx
        cases comp with
        | true =>
          refine ⟨suffix, ?_, hff⟩
          simp only [block_ops, reduceCtorEq, if_false, blocks_data, htake]
          rw [hdropnil]
          simpa using hsfx
        | false =>
          cases enc <;>
          · refine ⟨List.replicate (esp.FLASH_WRITE_SIZE - (b :: bs).length) 0xFF ++ suffix,
              ?_, ?_⟩
            · simp only [block_ops, reduceCtorEq, if_false, blocks_data, htake]
              rw [hdropnil]
              simp only [List.nil_append] at hsfx
              simp [hsfx, List.append_assoc, hlen]
            · intro x hx
              rcases List.mem_append.1 hx with hx | hx
              · exact List.eq_of_mem_replicate hx
              · exact hff x hx
      · -- a full block followed by the rest of the stream
        have htklen : ((b :: bs).take esp.FLASH_WRITE_SIZE).length = esp.FLASH_WRITE_SIZE := by
          simp [List.length_take]; omega
        have hpad : esp.FLASH_WRITE_SIZE - ((b :: bs).take esp.FLASH_WRITE_SIZE).length = 0 := by
          omega
        have hsplit :
            (b :: bs).take esp.FLASH_WRITE_SIZE ++ (b :: bs).drop esp.FLASH_WRITE_SIZE = b :: bs :=
          List.take_append_drop _ (b :: bs)
        refine ⟨suffix, ?_, hff⟩
        cases comp with
        | true =>
          simp only [block_ops, reduceCtorEq, if_false, blocks_data]
          rw [hsfx, ← List.append_assoc, hsplit]
        | false =>
          cases enc <;>
          · simp only [block_ops, reduceCtorEq, if_false, blocks_data, hpad,
              List.replicate_zero, List.append_nil]
            rw [hsfx, ← List.append_assoc, hsplit]

/-- The sequence numbers of an undisturbed streaming run count up from the
starting sequence number, one per block command. -/
theorem block_seqs_block_ops (esp : Esp) (enc comp : Bool) :
    ∀ fuel image seq,
      block_seqs (block_ops esp enc comp none fuel image seq).1 =
        List.range' seq (block_ops esp enc comp none fuel image seq).1.length := by
  intro fuel
  induction fuel with
  | zero =>
    intro image seq
    cases image with
    | nil => rfl
    | cons b bs => rfl
  | succ n ih =>
    intro image seq
    cases image with
    | nil => rfl
    | cons b bs =>
      have hrest := ih ((b :: bs).drop esp.FLASH_WRITE_SIZE) (seq + 1)
      cases comp with
      | true =>
        simp only [block_ops, reduceCtorEq, if_false, if_true, block_seqs,
          List.length_cons, List.range'_succ]
        rw [hrest]
      | false =>
        cases enc <;>
        · simp only [block_ops, reduceCtorEq, if_false, if_true, block_seqs,
            List.length_cons, List.range'_succ]
          rw [hrest]

/-- An attempt of the retry loop that succeeded issued exactly the commands
of an undisturbed attempt. -/
theorem attempt_ops_ok_eq (esp : Esp) (image : List Nat) (uncsize address : Nat)
    (enc comp : Bool) (disc : Option Nat)
    (h : (attempt_ops esp image uncsize address enc comp disc).2 = true) :
    (attempt_ops esp image uncsize address enc comp disc).1 =
      (attempt_ops esp image uncsize address enc comp none).1 := by
  have h2 : (block_ops esp enc comp disc image.length image 0).2 = true := by
    simpa [attempt_ops] using h
  simp [attempt_ops, block_ops_ok_eq esp enc comp disc image.length image 0 h2]

/-- With a positive write size, an undisturbed attempt succeeds. -/
theorem attempt_ops_none_ok (esp : Esp) (image : List Nat) (uncsize address : Nat)
    (enc comp : Bool) (hws : 0 < esp.FLASH_WRITE_SIZE) :
    (attempt_ops esp image uncsize address enc comp none).2 = true := by
  simpa [attempt_ops] using
    block_ops_none_ok esp enc comp hws image.length image 0 (le_refl _)

/-- An undisturbed attempt begins the write and then streams the whole
original image, with only `0xFF` padding after it, under consecutive block
numbers starting at 0. -/
theorem attempt_ops_none_spec (esp : Esp) (image : List Nat) (uncsize address : Nat)
    (enc comp : Bool) (hws : 0 < esp.FLASH_WRITE_SIZE) :
    (∃ suffix, blocks_data (attempt_ops esp image uncsize address enc comp none).1 =
        image ++ suffix ∧ ∀ x ∈ suffix, x = 0xFF) ∧
    block_seqs (attempt_ops esp image uncsize address enc comp none).1 =
      List.range (block_seqs (attempt_ops esp image uncsize address enc comp none).1).length := by
  constructor
  · obtain ⟨suffix, hs, hff⟩ :=
      blocks_data_block_ops esp enc comp hws image.length image 0 (le_refl _)
    refine ⟨suffix, ?_, hff⟩
    -- the begin command contributes no block data
    cases comp <;> simpa [attempt_ops, blocks_data] using hs
  · have hseqs := block_seqs_block_ops esp enc comp image.length image 0
    have hbegin :
        block_seqs (attempt_ops esp image uncsize address enc comp none).1 =
          block_seqs (block_ops esp enc comp none image.length image 0).1 := by
      cases comp <;> simp [attempt_ops, block_seqs]
    rw [hbegin, hseqs, List.range_eq_range', List.length_range']

/-- If every attempt of the schedule disconnects, the loop ends in a raised
exception no matter how reconnects fare. -/
theorem write_attempt_loop_all_fail (esp : Esp) (image : List Nat)
    (uncsize address : Nat) (enc comp : Bool) (sched : Nat → Option Nat)
    (reconnOk : Nat → Bool)
    (hfail : ∀ a, (attempt_ops esp image uncsize address enc comp (sched a)).2 = false) :
    ∀ remaining attempt acc,
      (write_attempt_loop esp image uncsize address enc comp sched reconnOk
        attempt remaining acc).2.isSome := by
  intro remaining
  induction remaining with
  | zero => intro attempt acc; simp [write_attempt_loop]
  | succ r ih =>
    intro attempt acc
    simp only [write_attempt_loop, hfail attempt, Bool.false_eq_true, if_false]
    by_cases hlast : attempt = esp.WRITE_FLASH_ATTEMPTS ∨ enc = true
    · simp [hlast]
    · simp only [if_neg hlast]
      by_cases hrec : reconnOk attempt = true
      · simp only [hrec, if_true]
        exact ih (attempt + 1) _
      · simp [hrec]

/-- If some attempt within the remaining budget completes while every
reconnect succeeds, the loop for a non-encrypted task ends successfully and
its trace ends with the commands of a complete undisturbed attempt. -/
theorem write_attempt_loop_success (esp : Esp) (image : List Nat)
    (uncsize address : Nat) (comp : Bool) (sched : Nat → Option Nat)
    (reconnOk : Nat → Bool) (hrec : ∀ i, reconnOk i = true) :
    ∀ remaining attempt acc,
      attempt + remaining = esp.WRITE_FLASH_ATTEMPTS + 1 →
      (∃ j, attempt ≤ j ∧ j < attempt + remaining ∧
        (attempt_ops esp image uncsize address false comp (sched j)).2 = true) →
      ∃ front,
        write_attempt_loop esp image uncsize address false comp sched reconnOk
            attempt remaining acc =
          (acc ++ front ++ (attempt_ops esp image uncsize address false comp none).1,
           none) := by
  intro remaining
  induction remaining with
  | zero =>
    rintro attempt acc hsum ⟨j, hj1, hj2, _⟩
    omega
  | succ r ih =>
    rintro attempt acc hsum ⟨j, hj1, hj2, hjok⟩
    by_cases hok : (attempt_ops esp image uncsize address false comp (sched attempt)).2 = true
    · refine ⟨[], ?_⟩
      simp only [write_attempt_loop, hok, if_true, List.append_nil]
      rw [attempt_ops_ok_eq esp image uncsize address false comp (sched attempt) hok]
    · have hja : j ≠ attempt := by
        intro hEq
        exact hok (hEq ▸ hjok)
      have hfalse : (attempt_ops esp image uncsize address false comp (sched attempt)).2 = false :=
        Bool.eq_false_iff.2 hok
      have hr1 : 1 ≤ r := by omega
      have hna2 : attempt ≠ esp.WRITE_FLASH_ATTEMPTS := by omega
      obtain ⟨front, hfront⟩ := ih (attempt + 1)
        (acc ++ (attempt_ops esp image uncsize address false comp (sched attempt)).1 ++
          [DevOp.reconnect] ++ (if esp.IS_STUB then [DevOp.runStub] else []))
        (by omega) ⟨j, by omega, by omega, hjok⟩
      refine ⟨(attempt_ops esp image uncsize address false comp (sched attempt)).1 ++
        [DevOp.reconnect] ++ (if esp.IS_STUB then [DevOp.runStub] else []) ++ front, ?_⟩
      simp only [write_attempt_loop, hfalse, Bool.false_eq_true, if_false,
        or_false, if_neg hna2, hrec attempt, if_true]
      rw [hfront]
      simp [List.append_assoc]

/-- C1: in `write_flash`, on a transport disconnect mid-transfer: (a) an
encrypted task propagates the failure on the first disconnect and is never
retried (its trace is that single attempt); (b) when every attempt of the
cap of 3 disconnects the failure propagates; (c) otherwise, with the
transport reopening successfully, the same task is resumed from its saved
original unmodified image and the trace ends with one complete undisturbed
begin/stream run; (d) such a complete run streams exactly the original
image from block number 0 with only `0xFF` padding after it, so the final
written content equals the full original task content. -/
theorem write_flash_retry_resumption (esp : Esp) (original_image : List Nat)
    (uncsize address : Nat) (comp : Bool) (sched : Nat → Option Nat)
    (reconnOk : Nat → Bool)
    (hws : 0 < esp.FLASH_WRITE_SIZE) (hW : esp.WRITE_FLASH_ATTEMPTS = 3) :
    ((attempt_ops esp original_image uncsize address true comp (sched 1)).2 = false →
      flash_task_transfer esp original_image uncsize address true comp sched reconnOk =
        ((attempt_ops esp original_image uncsize address true comp (sched 1)).1,
         some "SerialException")) ∧
    (∀ enc : Bool,
      (∀ a, (attempt_ops esp original_image uncsize address enc comp (sched a)).2 = false) →
      (flash_task_transfer esp original_image uncsize address enc comp sched reconnOk).2.isSome) ∧
    ((∀ i, reconnOk i = true) →
      (∃ j, 1 ≤ j ∧ j ≤ 3 ∧
        (attempt_ops esp original_image uncsize address false comp (sched j)).2 = true) →
      ∃ front,
        flash_task_transfer esp original_image uncsize address false comp sched reconnOk =
          (front ++ (attempt_ops esp original_image uncsize address false comp none).1,
           none)) ∧
    (∀ enc : Bool,
      (∃ suffix,
        blocks_data (attempt_ops esp original_image uncsize address enc comp none).1 =
          original_image ++ suffix ∧ ∀ x ∈ suffix, x = 0xFF) ∧
      block_seqs (attempt_ops esp original_image uncsize address enc comp none).1 =
        List.range
          (block_seqs (attempt_ops esp original_image uncsize address enc comp none).1).length) := by
  refine ⟨?_, ?_, ?_, ?_⟩
  · intro h
    simp [flash_task_transfer, hW, write_attempt_loop, h]
  · intro enc hfail
    exact write_attempt_loop_all_fail esp original_image uncsize address enc comp
      sched reconnOk hfail esp.WRITE_FLASH_ATTEMPTS 1 []
  · rintro hrec ⟨j, hj1, hj2, hjok⟩
    obtain ⟨front, hfront⟩ := write_attempt_loop_success esp original_image uncsize
      address comp sched reconnOk hrec esp.WRITE_FLASH_ATTEMPTS 1 [] (by omega)
      ⟨j, hj1, by omega, hjok⟩
    exact ⟨front, by simpa [flash_task_transfer] using hfront⟩
  · intro enc
    exact attempt_ops_none_spec esp original_image uncsize address enc comp hws

/-- Witness for C1: a concrete encrypted task whose first attempt
disconnects propagates immediately, and a concrete task disconnecting after
one block of attempt 1 then reconnecting ends with a full clean attempt. -/
theorem write_flash_retry_resumption_witness :
    (flash_task_transfer demoEsp [1, 2, 3, 4] 4 4096 true false
        (fun _ => some 0) (fun _ => true) =
      ((attempt_ops demoEsp [1, 2, 3, 4] 4 4096 true false (some 0)).1,
       some "SerialException")) ∧
    (∃ front, flash_task_transfer demoEsp [1, 2, 3, 4, 5, 6, 7, 8] 8 4096 false false
        (fun a => if a = 1 then some 1 else none) (fun _ => true) =
      (front ++ (attempt_ops demoEsp [1, 2, 3, 4, 5, 6, 7, 8] 8 4096 false false none).1,
       none)) := by
  constructor
  · exact (write_flash_retry_resumption demoEsp [1, 2, 3, 4] 4 4096 false
      (fun _ => some 0) (fun _ => true) (by decide) (by decide)).1 (by decide)
  · exact (write_flash_retry_resumption demoEsp [1, 2, 3, 4, 5, 6, 7, 8] 8 4096 false
      (fun a => if a = 1 then some 1 else none) (fun _ => true) (by decide)
      (by decide)).2.2.1 (fun _ => rfl) ⟨2, by decide, by decide, by decide⟩

/-- C2 is false as stated: when no separate `encrypt_files` list is given,
`write_flash` performs no sort at all (cmds.py only sorts at line 699 inside
`if encrypt_files is not None`).  With the caller supplying addresses out of
order, the assembled task list keeps that order, and the trace of a full
concrete run begins the task at `0x2000` before the task at `0x1000`. -/
theorem write_flash_order_counterexample :
    ((assemble_all_files [(0x2000, demoFileB), (0x1000, demoFileA)] false none).map
      (fun t => t.1) = [0x2000, 0x1000]) ∧
    ¬ List.Sorted (· ≤ ·)
      ((assemble_all_files [(0x2000, demoFileB), (0x1000, demoFileA)] false none).map
        (fun t => t.1)) ∧
    ((write_flash demoEsp [(0x2000, demoFileB), (0x1000, demoFileA)] "keep" "keep" "keep"
        { no_compress := true } (fun _ _ => none) (fun _ _ => true)).1.filterMap begin_addr =
      [0x2000, 0x1000, 0]) := by
  exact ⟨by decide, by decide, by decide⟩

/-- C2 amended: when a separate `encrypt_files` list is given, the combined
task list is sorted into ascending address order (by a stable sort, so it is
a permutation of the tagged inputs); when `encrypt_files` is absent, the
tasks are processed exactly in the caller-supplied order with no sort. -/
theorem write_flash_order_amended (addr_filename : List (Nat × ArgFile)) (encrypt : Bool) :
    (∀ efs,
      List.Sorted (· ≤ ·)
        ((assemble_all_files addr_filename encrypt (some efs)).map (fun t => t.1)) ∧
      (assemble_all_files addr_filename encrypt (some efs)).Perm
        (addr_filename.map (fun af => (af.1, af.2, encrypt)) ++
          efs.map (fun af => (af.1, af.2, true)))) ∧
    assemble_all_files addr_filename encrypt none =
      addr_filename.map (fun af => (af.1, af.2, encrypt)) := by
  constructor
  · intro efs
    haveI : IsTotal (Nat × ArgFile × Bool) (fun a b => a.1 ≤ b.1) :=
      ⟨fun a b => Nat.le_total a.1 b.1⟩
    haveI : IsTrans (Nat × ArgFile × Bool) (fun a b => a.1 ≤ b.1) :=
      ⟨fun _ _ _ => Nat.le_trans⟩
    constructor
    · have hs := List.sorted_insertionSort (fun a b => a.1 ≤ b.1)
        (addr_filename.map (fun af => (af.1, af.2, encrypt)) ++
          efs.map (fun af => (af.1, af.2, true)))
      simpa [assemble_all_files, sorted_by_addr, List.Sorted, List.pairwise_map] using hs
    · have hp := List.perm_insertionSort (fun a b => a.1 ≤ b.1)
        (addr_filename.map (fun af => (af.1, af.2, encrypt)) ++
          efs.map (fun af => (af.1, af.2, true)))
      simpa [assemble_all_files, sorted_by_addr] using hp
  · rfl

/-- C3 fails on the code: line 702 of cmds.py reads `compress = compress`, a
self-assignment that does not restore the per-request compression setting,
so once an encrypted file drops compression (line 709) every later file in
the same request is flashed uncompressed too.  Concretely: with compression
requested, an encrypted file at `0x10000` followed by a plain file at
`0x20000` makes the plain file use the uncompressed `flash_begin` path and
never the compressed `flash_defl_begin` path, while the same plain file
alone in a compressed request does use `flash_defl_begin`. -/
theorem compress_drop_leaks_to_later_tasks :
    ((write_flash demoEsp [(0x20000, demoFilePlain)] "keep" "keep" "keep"
        { compress := true, encrypt_files := some [(0x10000, demoFileEnc)] }
        (fun _ _ => none) (fun _ _ => true)).2 = none) ∧
    ((write_flash demoEsp [(0x20000, demoFilePlain)] "keep" "keep" "keep"
        { compress := true, encrypt_files := some [(0x10000, demoFileEnc)] }
        (fun _ _ => none) (fun _ _ => true)).1.any
      (fun op => match op with
        | DevOp.flashBegin _ 0x20000 _ => true
        | _ => false) = true) ∧
    ((write_flash demoEsp [(0x20000, demoFilePlain)] "keep" "keep" "keep"
        { compress := true, encrypt_files := some [(0x10000, demoFileEnc)] }
        (fun _ _ => none) (fun _ _ => true)).1.any
      (fun op => match op with
        | DevOp.flashDeflBegin _ _ 0x20000 => true
        | _ => false) = false) ∧
    ((write_flash demoEsp [(0x20000, demoFilePlain)] "keep" "keep" "keep"
        { compress := true }
        (fun _ _ => none) (fun _ _ => true)).1.any
      (fun op => match op with
        | DevOp.flashDeflBegin _ _ 0x20000 => true
        | _ => false) = true) := by
  exact ⟨by decide, by decide, by decide, by decide⟩

/-- The computed replacement flash-parameter field is always two bytes. -/
theorem computed_flash_params_length (esp : Esp) (ff fm fs : String)
    (image : List Nat) (fp : List Nat)
    (h : computed_flash_params esp ff fm fs image = some fp) : fp.length = 2 := by
  unfold computed_flash_params at h
  rcases hm : (if fm ≠ "keep" then FLASH_MODES fm else some (image.getD 2 0)) with _ | v
  · rw [hm] at h; cases h
  · rw [hm] at h
    simp only [Option.some.injEq] at h
    subst h
    rfl

/-- C4: the flash-parameter patch returns the image unchanged when it is
shorter than 8 bytes, when the address is not the bootloader offset, when
all of mode/freq/size are "keep", or when the magic-byte / image-validity
check fails; patching a valid image to its current (already matching)
values leaves the serialized bytes unchanged; and patching to new values
rewrites exactly the 2-byte parameter field at offsets 2-3 plus, when a
digest is appended, the 32 digest bytes at `data_length`, copying every
other byte from the input. -/
theorem update_flash_params_exact (esp : Esp) (address : Nat)
    (ff fm fs : String) (image : List Nat) :
    (image.length < 8 →
      update_image_flash_params esp address ff fm fs image = some (image, true)) ∧
    (address ≠ esp.BOOTLOADER_FLASH_OFFSET →
      update_image_flash_params esp address ff fm fs image = some (image, true)) ∧
    (fm = "keep" ∧ ff = "keep" ∧ fs = "keep" →
      update_image_flash_params esp address ff fm fs image = some (image, true)) ∧
    ((image.getD 0 0 ≠ esp.ESP_IMAGE_MAGIC ∨ esp.parseBootImage image = none) →
      update_image_flash_params esp address ff fm fs image = some (image, true)) ∧
    (∀ d, esp.parseBootImage image = some ⟨d⟩ →
      computed_flash_params esp ff fm fs image = some (pyslice image 2 4) →
      pyslice image d (d + SHA256_DIGEST_LEN) = esp.sha256 (image.take d) →
      (update_image_flash_params esp address ff fm fs image).map Prod.fst = some image) ∧
    (∀ fp, 8 ≤ image.length → address = esp.BOOTLOADER_FLASH_OFFSET →
      ¬(fm = "keep" ∧ ff = "keep" ∧ fs = "keep") →
      image.getD 0 0 = esp.ESP_IMAGE_MAGIC →
      (∃ i, esp.parseBootImage image = some i) →
      computed_flash_params esp ff fm fs image = some fp →
      fp ≠ pyslice image 2 4 →
      ¬(esp.CHIP_NAME ≠ "esp8266" ∧ image.getD 23 0 = 1) →
      update_image_flash_params esp address ff fm fs image =
        some (image.take 2 ++ fp ++ image.drop 4, true)) ∧
    (∀ d fp, 8 ≤ image.length → address = esp.BOOTLOADER_FLASH_OFFSET →
      ¬(fm = "keep" ∧ ff = "keep" ∧ fs = "keep") →
      image.getD 0 0 = esp.ESP_IMAGE_MAGIC →
      (∃ i, esp.parseBootImage image = some i) →
      computed_flash_params esp ff fm fs image = some fp →
      fp ≠ pyslice image 2 4 →
      (esp.CHIP_NAME ≠ "esp8266" ∧ image.getD 23 0 = 1) →
      esp.parseBootImage (image.take 2 ++ fp ++ image.drop 4) = some ⟨d⟩ →
      4 ≤ d →
      ∃ b, update_image_flash_params esp address ff fm fs image =
        some (image.take 2 ++ fp ++ (image.drop 4).take (d - 4) ++
          esp.sha256 (image.take 2 ++ fp ++ (image.drop 4).take (d - 4)) ++
          image.drop (d + SHA256_DIGEST_LEN), b)) := by
  refine ⟨?_, ?_, ?_, ?_, ?_, ?_, ?_⟩
  · intro h8
    simp [update_image_flash_params, h8]
  · intro haddr
    by_cases h8 : image.length < 8
    · simp [update_image_flash_params, h8]
    · simp [update_image_flash_params, h8, haddr]
  · intro hkeep
    by_cases h8 : image.length < 8
    · simp [update_image_flash_params, h8]
    · by_cases haddr : address ≠ esp.BOOTLOADER_FLASH_OFFSET
      · simp [update_image_flash_params, h8, haddr]
      · simp [update_image_flash_params, h8, haddr, hkeep]
  · intro hbad
    unfold update_image_flash_params
    by_cases h8 : image.length < 8
    · rw [if_pos h8]
    rw [if_neg h8]
    by_cases haddr : address ≠ esp.BOOTLOADER_FLASH_OFFSET
    · rw [if_pos haddr]
    rw [if_neg haddr]
    by_cases hkeep : fm = "keep" ∧ ff = "keep" ∧ fs = "keep"
    · rw [if_pos hkeep]
    rw [if_neg hkeep]
    rcases hbad with hmagic | hparse
    · rw [if_pos hmagic]
    · by_cases hmagic : image.getD 0 0 ≠ esp.ESP_IMAGE_MAGIC
      · rw [if_pos hmagic]
      · rw [if_neg hmagic]
        simp only [hparse]
  · intro d hparse hfp hstored
    -- the stored digest is current, so splicing the recomputed digest back
    -- reassembles the input image byte for byte
    have himg : image.take d ++
        esp.sha256 (image.take d) ++ image.drop (d + SHA256_DIGEST_LEN) = image := by
      have h1 : image.drop (d + SHA256_DIGEST_LEN) = (image.drop d).drop SHA256_DIGEST_LEN := by
        rw [List.drop_drop, Nat.add_comm]
      have h2 : esp.sha256 (image.take d) = (image.drop d).take SHA256_DIGEST_LEN := by
        rw [← hstored]
        simp [pyslice]
      rw [h1, h2, List.append_assoc, List.take_append_drop, List.take_append_drop]
    unfold update_image_flash_params
    by_cases h8 : image.length < 8
    · rw [if_pos h8]; rfl
    rw [if_neg h8]
    by_cases haddr : address ≠ esp.BOOTLOADER_FLASH_OFFSET
    · rw [if_pos haddr]; rfl
    rw [if_neg haddr]
    by_cases hkeep : fm = "keep" ∧ ff = "keep" ∧ fs = "keep"
    · rw [if_pos hkeep]; rfl
    rw [if_neg hkeep]
    by_cases hmagic : image.getD 0 0 ≠ esp.ESP_IMAGE_MAGIC
    · rw [if_pos hmagic]; rfl
    rw [if_neg hmagic]
    simp only [hparse, hfp]
    rw [if_neg (not_not_intro rfl)]
    by_cases hsha : esp.CHIP_NAME ≠ "esp8266" ∧ image.getD 23 0 = 1
    · rw [if_pos hsha]
      simp only [hparse, Option.map_some']
      rw [himg]
    · rw [if_neg hsha]
      rfl
  · intro fp h8 haddr hkeep hmagic hparse hfp hne hsha
    obtain ⟨i, hi⟩ := hparse
    have h8' : ¬ image.length < 8 := by omega
    unfold update_image_flash_params
    rw [if_neg h8', if_neg (not_not_intro haddr), if_neg hkeep,
      if_neg (not_not_intro hmagic)]
    simp only [hi, hfp, ne_eq, hne, not_false_eq_true, if_true, ite_true]
    rw [if_neg hsha]
  · intro d fp h8 haddr hkeep hmagic hparse hfp hne hsha hparse2 hd4
    obtain ⟨i, hi⟩ := hparse
    have h8' : ¬ image.length < 8 := by omega
    have hfplen : fp.length = 2 := computed_flash_params_length esp ff fm fs image fp hfp
    have htk2 : (image.take 2).length = 2 := by
      rw [List.length_take]; omega
    have hlen4 : (image.take 2 ++ fp).length = 4 := by
      rw [List.length_append, htk2, hfplen]
    -- the 'take' part of the patched image keeps the prefix and the new field
    have htake : (image.take 2 ++ fp ++ image.drop 4).take d =
        image.take 2 ++ fp ++ (image.drop 4).take (d - 4) := by
      rw [List.take_append_eq_append_take,
        List.take_of_length_le (by omega : (image.take 2 ++ fp).length ≤ d), hlen4]
    -- the 'drop' part of the patched image is the tail of the input
    have hdrop : (image.take 2 ++ fp ++ image.drop 4).drop (d + SHA256_DIGEST_LEN) =
        image.drop (d + SHA256_DIGEST_LEN) := by
      rw [List.drop_append_eq_append_drop,
        List.drop_eq_nil_iff.2 (by omega : (image.take 2 ++ fp).length ≤ d + SHA256_DIGEST_LEN),
        List.nil_append, hlen4, List.drop_drop]
      congr 1
      simp only [SHA256_DIGEST_LEN] at *
      omega
    unfold update_image_flash_params
    rw [if_neg h8', if_neg (not_not_intro haddr), if_neg hkeep,
      if_neg (not_not_intro hmagic)]
    simp only [hi, hfp, ne_eq, hne, not_false_eq_true, if_true, ite_true]
    rw [if_pos hsha]
    simp only [hparse2, htake, hdrop]
    exact ⟨_, rfl⟩

/-- Witness for C4 at concrete inputs: a short image is returned untouched;
patching the sample bootloader image to its current values returns it byte
for byte; patching its size field to a new value rewrites exactly bytes 2-3
and the trailing digest. -/
theorem update_flash_params_exact_witness :
    (update_image_flash_params demoEsp 0 "keep" "dio" "keep" [1, 2, 3] =
      some ([1, 2, 3], true)) ∧
    ((update_image_flash_params demoEsp 0 "keep" "dio" "keep" demoBootImage).map Prod.fst =
      some demoBootImage) ∧
    (∃ b, update_image_flash_params demoEsp 0 "keep" "dio" "8MB" demoBootImage =
      some (demoBootImage.take 2 ++ [2, 0x3F] ++ (demoBootImage.drop 4).take (24 - 4) ++
        demoEsp.sha256 (demoBootImage.take 2 ++ [2, 0x3F] ++
          (demoBootImage.drop 4).take (24 - 4)) ++
        demoBootImage.drop (24 + SHA256_DIGEST_LEN), b)) := by
  refine ⟨?_, ?_, ?_⟩
  · exact (update_flash_params_exact demoEsp 0 "keep" "dio" "keep" [1, 2, 3]).1 (by decide)
  · exact (update_flash_params_exact demoEsp 0 "keep" "dio" "keep" demoBootImage).2.2.2.2.1
      24 (by decide) (by decide) (by decide)
  · exact (update_flash_params_exact demoEsp 0 "keep" "dio" "8MB" demoBootImage).2.2.2.2.2.2
      24 [2, 0x3F] (by decide) rfl (by decide) (by decide) ⟨⟨24⟩, by decide⟩ (by decide)
      (by decide) (by decide) (by decide) (by decide)

/-- C10: whenever `_update_image_flash_params` recomputes the appended
digest, the bytes it stores back are exactly the freshly calculated digest
over the preceding bytes, so the stored-vs-calculated comparison always
succeeds and the "SHA recalculation for binary failed!" warning branch is
unreachable.  The hypotheses record two facts about the external
collaborators: SHA-256 digests are 32 bytes long, and the `data_length` of a
successfully parsed image never exceeds the image length (it is the offset
of the digest inside it). -/
theorem sha_warning_unreachable (esp : Esp) (address : Nat)
    (ff fm fs : String) (image : List Nat) (r : List Nat) (b : Bool)
    (hshalen : ∀ l, (esp.sha256 l).length = SHA256_DIGEST_LEN)
    (hparselen : ∀ img i, esp.parseBootImage img = some i → i.data_length ≤ img.length)
    (h : update_image_flash_params esp address ff fm fs image = some (r, b)) :
    b = true := by
  unfold update_image_flash_params at h
  split at h
  · cases h; rfl
  split at h
  · cases h; rfl
  split at h
  · cases h; rfl
  split at h
  · cases h; rfl
  rcases hp : esp.parseBootImage image with _ | i₀
  · rw [hp] at h; cases h; rfl
  rw [hp] at h
  simp only at h
  rcases hc : computed_flash_params esp ff fm fs image with _ | fp
  · rw [hc] at h; cases h
  rw [hc] at h
  simp only at h
  split at h
  · -- digest branch: the stored slice of the spliced image is the
    -- recomputed digest itself
    rcases hp2 : esp.parseBootImage
        (if fp ≠ pyslice image 2 4 then image.take 2 ++ fp ++ image.drop 4 else image)
      with _ | info
    · rw [hp2] at h; cases h
    rw [hp2] at h
    simp only at h
    have hdle := hparselen _ _ hp2
    have htlen : ((if fp ≠ pyslice image 2 4 then image.take 2 ++ fp ++ image.drop 4
        else image).take info.data_length).length = info.data_length := by
      rw [List.length_take]
      omega
    have hgen : ∀ pre mid post : List Nat, pre.length = info.data_length →
        mid.length = SHA256_DIGEST_LEN →
        pyslice (pre ++ mid ++ post) info.data_length
          (info.data_length + SHA256_DIGEST_LEN) = mid := by
      intro pre mid post hpre hmid
      unfold pyslice
      rw [List.append_assoc, List.drop_append_eq_append_drop,
        List.drop_eq_nil_iff.2 (le_of_eq hpre), List.nil_append, hpre,
        Nat.sub_self, List.drop_zero, Nat.add_sub_cancel_left,
        List.take_append_eq_append_take,
        List.take_of_length_le (le_of_eq hmid), hmid,
        Nat.sub_self, List.take_zero, List.append_nil]
    rw [hgen _ _ _ htlen (hshalen _)] at h
    cases h
    simp
  · cases h; rfl

/-- Witness for C10: on the sample bootloader image the digest comparison
succeeds and no warning is emitted. -/
theorem sha_warning_unreachable_witness :
    (update_image_flash_params demoEsp 0 "keep" "dio" "8MB" demoBootImage).map Prod.snd =
      some true := by
  rcases h : update_image_flash_params demoEsp 0 "keep" "dio" "8MB" demoBootImage with _ | rb
  · exact absurd h (by decide)
  · obtain ⟨r, b⟩ := rb
    have hb := sha_warning_unreachable demoEsp 0 "keep" "dio" "8MB" demoBootImage r b
      (fun l => by simp [Esp.sha256, demoEsp, SHA256_DIGEST_LEN])
      (fun img i hi => by
        simp only [demoEsp] at hi
        split at hi
        · cases hi; simp
        · cases hi)
      h
    simp [hb]

/-- A sample file whose parsed image declares a chip id different from the
session chip, used by the C5 witness. -/
def demoFileWrongChip : ArgFile :=
  { name := "wrong.bin", data := [1, 2, 3, 4],
    parsedImage := some { chip_id := 7, min_rev := 0, min_rev_full := 0, max_rev_full := 0 } }

/-- C5: in the security pre-flight of `write_flash`, (i) the extended
`min/max_rev_full` fields are used exactly when `max_rev_full` is non-zero,
except that `max_rev_full = 65535` with `min_rev_full = 0` and a non-zero
legacy `min_rev` falls back to the legacy field; (ii) a declared chip id
differing from the session chip raises a fatal error; (iii) in the extended
path the check fails exactly when the chip revision is outside
`[min_rev_full, max_rev_full]`; (iv) in the legacy path the minor revision
is compared on ESP32-C3 and the major revision elsewhere; (v) a failing
check aborts `write_flash` with an empty device trace, before any flash
mutation. -/
theorem security_preflight_rev_checks (esp : Esp) :
    (∀ img, use_rev_full_fields img = true ↔
      (img.max_rev_full ≠ 0 ∧
        ¬(img.max_rev_full = 65535 ∧ img.min_rev_full = 0 ∧ img.min_rev ≠ 0))) ∧
    (∀ fname img, img.chip_id ≠ esp.IMAGE_CHIP_ID →
      (check_image_rev esp fname img).isSome) ∧
    (∀ fname img, img.chip_id = esp.IMAGE_CHIP_ID → use_rev_full_fields img = true →
      ((check_image_rev esp fname img).isSome ↔
        (esp.get_chip_revision < img.min_rev_full ∨
          esp.get_chip_revision > img.max_rev_full))) ∧
    (∀ fname img, img.chip_id = esp.IMAGE_CHIP_ID → use_rev_full_fields img = false →
      ((check_image_rev esp fname img).isSome ↔
        (if esp.CHIP_NAME = "ESP32-C3" then esp.get_minor_chip_version
         else esp.get_major_chip_version) < img.min_rev)) ∧
    (∀ addr_filename ff fm fs (args : WriteFlashArgs) sched reconnOk,
      args.force = false → esp.CHIP_NAME ≠ "ESP8266" → esp.secure_download_mode = false →
      (∃ af ∈ addr_filename, ∃ img, (af.2 : ArgFile).parsedImage = some img ∧
        (check_image_rev esp af.2.name img).isSome) →
      (write_flash esp addr_filename ff fm fs args sched reconnOk).1 = [] ∧
      (write_flash esp addr_filename ff fm fs args sched reconnOk).2.isSome) := by
  refine ⟨?_, ?_, ?_, ?_, ?_⟩
  · intro img
    unfold use_rev_full_fields
    by_cases h0 : img.max_rev_full = 0
    · simp [h0]
    by_cases h65 : img.max_rev_full = 65535
    · by_cases hmin : img.min_rev_full = 0 ∧ img.min_rev ≠ 0
      · simp [h0, h65, hmin]
      · simp [h0, h65, hmin]
    · simp [h0, h65]
  · intro fname img hne
    unfold check_image_rev
    rw [if_pos hne]
    rfl
  · intro fname img heq hfull
    unfold check_image_rev
    rw [if_neg (not_not_intro heq), if_pos hfull]
    by_cases hout : esp.get_chip_revision < img.min_rev_full ∨
        esp.get_chip_revision > img.max_rev_full
    · simp [hout]
    · simp [hout]
  · intro fname img heq hfull
    unfold check_image_rev
    rw [if_neg (not_not_intro heq), if_neg (by simp [hfull])]
    by_cases hlow : (if esp.CHIP_NAME = "ESP32-C3" then esp.get_minor_chip_version
        else esp.get_major_chip_version) < img.min_rev
    · simp [hlow]
    · simp [hlow]
  · intro addr_filename ff fm fs args sched reconnOk hforce hchip hsdm hex
    have hsec : (security_preflight esp addr_filename args.force).isSome := by
      unfold security_preflight
      rw [if_pos ⟨by simp [hforce], hchip, by simp [hsdm]⟩]
      rcases hsb : (if esp.get_secure_boot_enabled then
          addr_filename.findSome? (fun af =>
            if af.1 < 0x8000 then
              some ("Secure Boot detected, writing to flash regions below 0x8000 " ++
                "is disabled to protect the bootloader.")
            else none)
          else none) with _ | e
      · simp only [hsb]
        obtain ⟨af, hmem, img, himg, hchk⟩ := hex
        obtain ⟨e, he⟩ := Option.isSome_iff_exists.1 hchk
        rcases hf : addr_filename.findSome? (fun af =>
            match af.2.parsedImage with
            | none => none
            | some img => check_image_rev esp af.2.name img) with _ | e'
        · exfalso
          have := List.findSome?_eq_none_iff.1 hf af hmem
          rw [himg] at this
          simp only at this
          rw [he] at this
          cases this
        · rw [hf]
          rfl
      · simp only [hsb]
        rfl
    obtain ⟨e, he⟩ := Option.isSome_iff_exists.1 hsec
    unfold write_flash
    rw [he]
    exact ⟨rfl, rfl⟩

/-- Witness for C5: a file declaring chip id 7 on a session with chip id 9
fails the check, and a concrete `write_flash` run aborts with an empty
trace. -/
theorem security_preflight_rev_checks_witness :
    (check_image_rev demoEsp "wrong.bin"
      { chip_id := 7, min_rev := 0, min_rev_full := 0, max_rev_full := 0 }).isSome ∧
    ((write_flash demoEsp [(0x1000, demoFileWrongChip)] "keep" "keep" "keep" {}
        (fun _ _ => none) (fun _ _ => true)).1 = [] ∧
     (write_flash demoEsp [(0x1000, demoFileWrongChip)] "keep" "keep" "keep" {}
        (fun _ _ => none) (fun _ _ => true)).2.isSome) := by
  constructor
  · exact (security_preflight_rev_checks demoEsp).2.1 "wrong.bin"
      { chip_id := 7, min_rev := 0, min_rev_full := 0, max_rev_full := 0 } (by decide)
  · exact (security_preflight_rev_checks demoEsp).2.2.2.2 [(0x1000, demoFileWrongChip)]
      "keep" "keep" "keep" {} (fun _ _ => none) (fun _ _ => true) rfl (by decide) rfl
      ⟨(0x1000, demoFileWrongChip), List.Mem.head _,
        { chip_id := 7, min_rev := 0, min_rev_full := 0, max_rev_full := 0 }, rfl, by decide⟩

/-- The only device command `_set_flash_parameters` may issue is the
parameter-set command, never an erase or a write. -/
theorem set_flash_parameters_ops_shape (esp : Esp) (fs : String)
    (ops : List DevOp) (s : String)
    (h : _set_flash_parameters esp fs = Except.ok (ops, s)) :
    ops = [] ∨ ∃ n, ops = [DevOp.flashSetParams n] := by
  unfold _set_flash_parameters at h
  dsimp only at h
  split at h
  · cases h
  · cases h
    exact Or.inl rfl
  · split at h
    · cases h
    · cases h
      exact Or.inr ⟨_, rfl⟩

/-- The trace accumulated by the flash-size resolution contains no erase or
write command. -/
theorem resolve_flash_end_ops_shape (esp : Esp) (fs : String)
    (ops : List DevOp) (fsr : String) (fe : Option Nat)
    (h : resolve_flash_end esp fs = Except.ok (ops, fsr, fe)) :
    ops = [] ∨ ∃ n, ops = [DevOp.flashSetParams n] := by
  unfold resolve_flash_end at h
  rcases hs : _set_flash_parameters esp fs with e | ⟨ops0, s0⟩
  · rw [hs] at h; cases h
  rw [hs] at h
  dsimp only at h
  split at h
  · cases h
  · split at h
    · cases h
      exact set_flash_parameters_ops_shape esp fs _ _ hs
    · cases h
    · cases h
      exact set_flash_parameters_ops_shape esp fs _ _ hs

/-- C6: when a flash end size is resolved, a task whose
`address + file length` exceeds it makes `write_flash` abort with a fatal
error, and the whole batch performs zero erase or write commands. -/
theorem oversize_file_rejected (esp : Esp) (addr_filename : List (Nat × ArgFile))
    (ff fm fs : String) (args : WriteFlashArgs)
    (sched : Nat → Nat → Option Nat) (reconnOk : Nat → Nat → Bool)
    (ops0 : List DevOp) (fsr : String) (F : Nat)
    (hres : resolve_flash_end esp fs = Except.ok (ops0, fsr, some F))
    (hover : ∃ af ∈ addr_filename, af.1 + (af.2 : ArgFile).data.length > F) :
    (write_flash esp addr_filename ff fm fs args sched reconnOk).2.isSome ∧
    ∀ op ∈ (write_flash esp addr_filename ff fm fs args sched reconnOk).1,
      is_write_op op = false := by
  have hops0 : ∀ op ∈ ops0, is_write_op op = false := by
    rcases resolve_flash_end_ops_shape esp fs ops0 fsr (some F) hres with h0 | ⟨n, h0⟩ <;>
      subst h0
    · intro op hop; cases hop
    · intro op hop
      rw [List.mem_singleton.1 hop]
      rfl
  have hfit : (check_files_fit (some F) addr_filename).isSome := by
    obtain ⟨af, hmem, hgt⟩ := hover
    simp only [check_files_fit]
    rcases hf : addr_filename.findSome? (fun af =>
        if af.1 + af.2.data.length > F then
          some ("File " ++ af.2.name ++ " (length " ++ toString af.2.data.length ++
            ") at offset " ++ toString af.1 ++ " will not fit in " ++
            toString F ++ " bytes of flash. " ++
            "Change the flash_size argument, or flashing address.")
        else none) with _ | e
    · exfalso
      have := List.findSome?_eq_none_iff.1 hf af hmem
      rw [if_pos hgt] at this
      cases this
    · rw [hf]
      rfl
  unfold write_flash
  rcases h1 : security_preflight esp addr_filename args.force with _ | e1
  · simp only [h1]
    rcases h2 : encryption_preflight esp addr_filename args.encrypt args.encrypt_files
        args.ignore_flash_enc_efuse args.force with _ | e2
    · simp only [h2, hres]
      obtain ⟨e3, he3⟩ := Option.isSome_iff_exists.1 hfit
      rw [he3]
      exact ⟨rfl, hops0⟩
    · simp only [h2]
      exact ⟨rfl, by intro op hop; cases hop⟩
  · simp only [h1]
    exact ⟨rfl, by intro op hop; cases hop⟩

/-- Witness for C6: a 4-byte file at the very end of the resolved 4 MB flash
is rejected with no erase or write command issued. -/
theorem oversize_file_rejected_witness :
    (write_flash demoEsp [(0x400000, demoFilePlain)] "keep" "keep" "keep" {}
      (fun _ _ => none) (fun _ _ => true)).2.isSome ∧
    ∀ op ∈ (write_flash demoEsp [(0x400000, demoFilePlain)] "keep" "keep" "keep" {}
      (fun _ _ => none) (fun _ _ => true)).1, is_write_op op = false := by
  exact oversize_file_rejected demoEsp [(0x400000, demoFilePlain)] "keep" "keep" "keep" {}
    (fun _ _ => none) (fun _ _ => true) [DevOp.flashSetParams 4194304] "keep" 4194304
    rfl ⟨(0x400000, demoFilePlain), List.Mem.head _, by decide⟩

/-- C7 is false as stated: with `ignore_flash_enc_efuse` set, a misaligned
encrypted task is not rejected — the concrete run below finishes without an
error after sending encrypted write commands to the device.  (The alignment
check result only feeds the shared `do_write` flag, whose failure is ignored
under that option, cmds.py line 586.) -/
theorem encrypted_misaligned_counterexample :
    ((write_flash demoEsp [] "keep" "keep" "keep"
        { no_compress := true, encrypt_files := some [(0x1004, demoFileEnc)],
          ignore_flash_enc_efuse := true }
        (fun _ _ => none) (fun _ _ => true)).2 = none) ∧
    ((write_flash demoEsp [] "keep" "keep" "keep"
        { no_compress := true, encrypt_files := some [(0x1004, demoFileEnc)],
          ignore_flash_enc_efuse := true }
        (fun _ _ => none) (fun _ _ => true)).1.any is_write_op = true) := by
  exact ⟨by decide, by decide⟩

/-- C7 amended: when encryption is requested, `ignore_flash_enc_efuse` is
off, and some task in the alignment-checked list (all tasks under
whole-batch encryption, otherwise the `encrypt_files` list) has an address
that is not a multiple of the encrypted-write alignment, the entire batch
aborts with a fatal error and an empty device trace — including any tasks
whose addresses are valid. -/
theorem encrypted_misaligned_rejected (esp : Esp)
    (addr_filename : List (Nat × ArgFile)) (ff fm fs : String)
    (args : WriteFlashArgs) (sched : Nat → Nat → Option Nat)
    (reconnOk : Nat → Nat → Bool)
    (henc : args.encrypt = true ∨ args.encrypt_files.isSome)
    (hign : args.ignore_flash_enc_efuse = false)
    (hmis : ∃ af ∈ (if args.encrypt then addr_filename else args.encrypt_files.getD []),
      (af : Nat × ArgFile).1 % esp.FLASH_ENCRYPTED_WRITE_ALIGN ≠ 0) :
    (write_flash esp addr_filename ff fm fs args sched reconnOk).1 = [] ∧
    (write_flash esp addr_filename ff fm fs args sched reconnOk).2.isSome := by
  have hpre : (encryption_preflight esp addr_filename args.encrypt args.encrypt_files
      args.ignore_flash_enc_efuse args.force).isSome := by
    unfold encryption_preflight
    rw [if_pos (by
      rcases henc with h | h
      · exact Or.inl (by simp [h])
      · exact Or.inr (by simp [h]))]
    split
    · rfl
    · -- the alignment check forces do_write to false, and the flag is off
      obtain ⟨af, hmem, hal⟩ := hmis
      cases hEncFlag : args.encrypt with
      | true =>
        rw [hEncFlag] at hmem
        simp only [hEncFlag, if_true]
        rw [if_pos (by
          simp [hign]
          exact Or.inl ⟨af.1, ⟨af.2, by simpa using hmem⟩, hal⟩)]
        rfl
      | false =>
        rcases hef : args.encrypt_files with _ | efl
        · rcases henc with h | h
          · rw [hEncFlag] at h; cases h
          · rw [hef] at h; cases h
        · rw [hEncFlag, hef] at hmem
          simp only [hEncFlag, hef, if_false]
          rw [if_pos (by
            simp [hign]
            exact Or.inl ⟨af.1, ⟨af.2, by simpa using hmem⟩, hal⟩)]
          rfl
  unfold write_flash
  rcases h1 : security_preflight esp addr_filename args.force with _ | e1
  · simp only [h1]
    obtain ⟨e2, he2⟩ := Option.isSome_iff_exists.1 hpre
    rw [he2]
    exact ⟨by simp, by simp⟩
  · simp only [h1]
    exact ⟨by simp, by simp⟩

/-- Witness for C7 (amended): the same misaligned encrypted task with
`ignore_flash_enc_efuse` off aborts the whole batch with no device
command. -/
theorem encrypted_misaligned_rejected_witness :
    (write_flash demoEsp [] "keep" "keep" "keep"
        { no_compress := true, encrypt_files := some [(0x1004, demoFileEnc)] }
        (fun _ _ => none) (fun _ _ => true)).1 = [] ∧
    (write_flash demoEsp [] "keep" "keep" "keep"
        { no_compress := true, encrypt_files := some [(0x1004, demoFileEnc)] }
        (fun _ _ => none) (fun _ _ => true)).2.isSome := by
  exact encrypted_misaligned_rejected demoEsp [] "keep" "keep" "keep"
    { no_compress := true, encrypt_files := some [(0x1004, demoFileEnc)] }
    (fun _ _ => none) (fun _ _ => true) (Or.inr rfl) rfl
    ⟨(0x1004, demoFileEnc), List.Mem.head _, by decide⟩

/-- Streaming a task never issues a device MD5 request. -/
theorem block_ops_no_md5 (esp : Esp) (enc comp : Bool) (disc : Option Nat) :
    ∀ fuel image seq, ∀ op ∈ (block_ops esp enc comp disc fuel image seq).1,
      is_md5_op op = false := by
  intro fuel
  induction fuel with
  | zero =>
    intro image seq op hop
    cases image with
    | nil => cases hop
    | cons b bs => cases hop
  | succ n ih =>
    intro image seq op hop
    cases image with
    | nil => cases hop
    | cons b bs =>
      by_cases hd : disc = some seq
      · simp [block_ops, hd] at hop
      · simp only [block_ops, if_neg hd, reduceCtorEq, if_false] at hop
        rcases List.mem_cons.1 hop with hop | hop
        · subst hop
          cases comp <;> cases enc <;> rfl
        · exact ih _ _ op hop

/-- One attempt of the retry loop never issues a device MD5 request. -/
theorem attempt_ops_no_md5 (esp : Esp) (image : List Nat) (uncsize address : Nat)
    (enc comp : Bool) (disc : Option Nat) :
    ∀ op ∈ (attempt_ops esp image uncsize address enc comp disc).1,
      is_md5_op op = false := by
  intro op hop
  simp only [attempt_ops] at hop
  rcases List.mem_cons.1 hop with hop | hop
  · subst hop
    cases comp <;> rfl
  · exact block_ops_no_md5 esp enc comp disc _ _ _ op hop

/-- With no disconnect scheduled, the transfer of a task succeeds on the
first attempt and its trace is that of one undisturbed attempt. -/
theorem flash_task_transfer_none_ok (esp : Esp) (image : List Nat)
    (uncsize address : Nat) (enc comp : Bool) (reconnOk : Nat → Bool)
    (hws : 0 < esp.FLASH_WRITE_SIZE) (hWa : 0 < esp.WRITE_FLASH_ATTEMPTS) :
    flash_task_transfer esp image uncsize address enc comp (fun _ => none) reconnOk =
      ((attempt_ops esp image uncsize address enc comp none).1, none) := by
  unfold flash_task_transfer
  rcases hW : esp.WRITE_FLASH_ATTEMPTS with _ | w
  · omega
  · simp [write_attempt_loop,
      attempt_ops_none_ok esp image uncsize address enc comp hws]

/-- C8: in the per-task loop of `write_flash`, with a clean transfer of a
non-empty file, the device-side MD5 verification request is issued exactly
when the task was not encrypted and the session is not in secure download
mode; and when the device hash disagrees with the expected one but equals
the hash of an all-`0xFF` region of the same length, the distinct fatal
error "Write failed, the written flash region is empty." is raised instead
of the generic MD5 mismatch. -/
theorem verification_iff_and_empty_region (esp : Esp) (ff fm fs : String)
    (compress0 : Bool) (address : Nat) (argfile : ArgFile) (encrypted : Bool)
    (reconnOk : Nat → Bool)
    (hws : 0 < esp.FLASH_WRITE_SIZE) (hWa : 0 < esp.WRITE_FLASH_ATTEMPTS)
    (hdata : argfile.data ≠ []) :
    (∀ a2 img2,
      prepare_image esp ff fm fs address argfile.data encrypted = some (a2, img2) →
      (((flash_one_file esp ff fm fs compress0 address argfile encrypted
          (fun _ => none) reconnOk).1.any is_md5_op = true) ↔
        (encrypted = false ∧ esp.secure_download_mode = false))) ∧
    (∀ a2 img2 res,
      prepare_image esp ff fm fs address argfile.data encrypted = some (a2, img2) →
      encrypted = false → esp.secure_download_mode = false →
      esp.flash_md5sum a2 img2.length = Except.ok res →
      res ≠ esp.md5 img2 →
      res = esp.md5 (List.replicate img2.length 0xFF) →
      (flash_one_file esp ff fm fs compress0 address argfile encrypted
        (fun _ => none) reconnOk).2.1 =
        some "Write failed, the written flash region is empty.") := by
  have hlen : ¬ argfile.data.length = 0 := by
    simpa [List.length_eq_zero] using hdata
  constructor
  · intro a2 img2 hprep
    unfold flash_one_file
    rw [if_neg hlen, hprep]
    dsimp only
    rw [flash_task_transfer_none_ok esp _ img2.length a2 encrypted
      (if compress0 = true ∧ encrypted = true then false else compress0) reconnOk hws hWa]
    dsimp only
    have hnomd5 : ∀ op ∈ (attempt_ops esp
        (if (if compress0 = true ∧ encrypted = true then false else compress0) = true
          then esp.zlib_compress img2 else img2) img2.length a2 encrypted
        (if compress0 = true ∧ encrypted = true then false else compress0) none).1 ++
        (if esp.IS_STUB = true then [DevOp.readReg CHIP_DETECT_MAGIC_REG_ADDR] else []),
        is_md5_op op = false := by
      intro op hop
      rcases List.mem_append.1 hop with hop | hop
      · exact attempt_ops_no_md5 esp _ _ _ _ _ none op hop
      · rcases hstub : esp.IS_STUB with _ | _ <;> rw [hstub] at hop
        · cases hop
        · rw [List.mem_singleton.1 hop]
          rfl
    by_cases hver : encrypted = false ∧ esp.secure_download_mode = false
    · rw [if_pos (by simp [hver.1, hver.2])]
      constructor
      · intro _; exact hver
      · intro _
        refine List.any_eq_true.2 ⟨DevOp.flashMd5sum a2 img2.length, ?_, rfl⟩
        rcases hm : esp.flash_md5sum a2 img2.length with _ | res <;> dsimp only
        · simp
        · split
          · split <;> simp
          · simp
    · rw [if_neg (by
        intro hc
        exact hver ⟨by simpa using hc.1, by simpa using hc.2⟩)]
      dsimp only
      constructor
      · intro hany
        obtain ⟨op, hop, hmd5⟩ := List.any_eq_true.1 hany
        rw [hnomd5 op hop] at hmd5
        cases hmd5
      · intro hc
        exact absurd hc hver
  · intro a2 img2 res hprep henc hsdm hmd5 hneq hempty
    unfold flash_one_file
    rw [if_neg hlen, hprep]
    dsimp only
    rw [flash_task_transfer_none_ok esp _ img2.length a2 encrypted
      (if compress0 = true ∧ encrypted = true then false else compress0) reconnOk hws hWa]
    dsimp only
    rw [if_pos (by simp [henc, hsdm]), hmd5]
    dsimp only
    rw [if_pos hneq, if_pos hempty]

/-- A device session whose MD5 answer is the hash of an all-erased region,
used by the C8 witness: the dummy `md5` maps the 4-byte all-`0xFF` region to
`[99]` and anything else to its length, and the device answers `[99]`. -/
def demoEspMd5 : Esp :=
  { demoEsp with
    flash_md5sum := fun _ _ => Except.ok [99]
    md5 := fun l => if l = List.replicate 4 0xFF then [99] else [l.length % 256] }

/-- Witness for C8: a concrete clean run issues the MD5 request, and a
device answering with the all-erased hash triggers the distinct
empty-region error. -/
theorem verification_iff_and_empty_region_witness :
    ((flash_one_file demoEspMd5 "keep" "keep" "keep" false 0x3000 demoFilePlain false
        (fun _ => none) (fun _ => true)).1.any is_md5_op = true) ∧
    ((flash_one_file demoEspMd5 "keep" "keep" "keep" false 0x3000 demoFilePlain false
        (fun _ => none) (fun _ => true)).2.1 =
      some "Write failed, the written flash region is empty.") := by
  constructor
  · exact ((verification_iff_and_empty_region demoEspMd5 "keep" "keep" "keep" false 0x3000
      demoFilePlain false (fun _ => true) (by decide) (by decide) (by decide)).1
      0x3000 [9, 9, 9, 9] (by decide)).2 ⟨rfl, rfl⟩
  · exact (verification_iff_and_empty_region demoEspMd5 "keep" "keep" "keep" false 0x3000
      demoFilePlain false (fun _ => true) (by decide) (by decide) (by decide)).2
      0x3000 [9, 9, 9, 9] [99] (by decide) rfl rfl rfl (by decide) (by decide)

/-- C9: in `detect_chip`, when the get-chip-id phase raises an
unsupported-command error, the reconnect succeeds, and the fallback
magic-value register read also raises an unsupported-command error, the
detection fails immediately with the fatal error instructing the caller to
specify the chip manually. -/
theorem detect_chip_sdm_manual (rom_list : List RomCls) (port : DetectPort)
    (h1 : port.get_chip_id = Except.error Phase1Err.unsupportedCmd)
    (h2 : port.reconnect_result = Except.ok ())
    (h3 : port.read_reg_magic = Except.error ()) :
    detect_chip rom_list port =
      Except.error ("Unsupported Command Error received. " ++
        "Probably this means Secure Download Mode is enabled, " ++
        "autodetection will not work. Need to manually specify the chip.") := by
  unfold detect_chip
  rw [h1]
  dsimp only
  rw [if_pos (by decide : Phase1Err.unsupportedCmd ≠ Phase1Err.structErr), h2]
  dsimp only
  rw [h3]

/-- Witness for C9: a concrete port raising unsupported-command in both
phases makes detection fail with the manual-specification error. -/
theorem detect_chip_sdm_manual_witness :
    detect_chip []
      { get_chip_id := Except.error Phase1Err.unsupportedCmd
        read_reg_magic := Except.error ()
        dummy_read := Except.ok 0
        reconnect_result := Except.ok () } =
      Except.error ("Unsupported Command Error received. " ++
        "Probably this means Secure Download Mode is enabled, " ++
        "autodetection will not work. Need to manually specify the chip.") := by
  exact detect_chip_sdm_manual []
    { get_chip_id := Except.error Phase1Err.unsupportedCmd
      read_reg_magic := Except.error ()
      dummy_read := Except.ok 0
      reconnect_result := Except.ok () } rfl rfl rfl

end Esptool
